import Mathlib

/-!
Verification development for the upload-mcp repository (src/index.ts).

The two tool handlers `handleUploadFile` and `handleUploadFileContent` are
embedded shallowly: JavaScript strings become `List Char`, the ambient effects
(filesystem existence check, the random UUID, the spawned curl process, the
temp-file deletion) become an explicit `Env` record supplying each outcome of
the call, and the side effects performed by a call are collected in an ordered
`Effect` trace. Library functions from the runtime (node:path basename and
extname, atob forgiving-base64 validation, Buffer.from base64 decoding) are
modelled from their documented semantics, since their source is outside the
repository.
-/

namespace UploadMcp

/-- JavaScript strings are modelled as lists of characters. -/
abbrev Str := List Char

instance {ε α : Type _} [DecidableEq ε] [DecidableEq α] :
    DecidableEq (Except ε α) := fun a b =>
  match a, b with
  | .ok x, .ok y =>
    if h : x = y then .isTrue (by rw [h]) else .isFalse (fun he => h (by cases he; rfl))
  | .error x, .error y =>
    if h : x = y then .isTrue (by rw [h]) else .isFalse (fun he => h (by cases he; rfl))
  | .ok _, .error _ => .isFalse (fun he => by cases he)
  | .error _, .ok _ => .isFalse (fun he => by cases he)

/-! ### Models of node:path posix basename and extname -/

/-- Model of node:path: drop trailing separators of a path. -/
def dropTrailingSlashes (p : Str) : Str :=
  (p.reverse.dropWhile (fun c => c == '/')).reverse

/-- Model of node:path: the part of a path after its last separator. -/
def lastSegment (p : Str) : Str :=
  (p.reverse.takeWhile (fun c => c != '/')).reverse

/-- Model of node:path posix `basename` (one-argument form): the last
non-empty path segment, ignoring trailing separators; empty for the root
or the empty path. -/
def basename (p : Str) : Str :=
  lastSegment (dropTrailingSlashes p)

/-- Index of the last dot of a segment, if any. -/
def lastDotIdx (s : Str) : Option Nat :=
  if s.contains '.' then
    some (s.length - 1 - s.reverse.findIdx (fun c => c == '.'))
  else none

/-- Model of node:path posix `extname`: the suffix of the last segment from
its last dot, except that a lone leading dot (hidden files such as
`.bashrc`) and the segment `..` yield the empty extension. -/
def extname (p : Str) : Str :=
  let s := basename p
  match lastDotIdx s with
  | none => []
  | some i => if i = 0 ∨ s = ['.', '.'] then [] else s.drop i

/-! ### The two extension tables of src/index.ts -/

/-- Extension table of `detectContentType` (src/index.ts lines 34-99),
used by the path-based tool. -/
def pathMimeTable : List (Str × Str) := [
  (".jpg".toList, "image/jpeg".toList),
  (".jpeg".toList, "image/jpeg".toList),
  (".png".toList, "image/png".toList),
  (".gif".toList, "image/gif".toList),
  (".webp".toList, "image/webp".toList),
  (".svg".toList, "image/svg+xml".toList),
  (".bmp".toList, "image/bmp".toList),
  (".ico".toList, "image/x-icon".toList),
  (".tiff".toList, "image/tiff".toList),
  (".tif".toList, "image/tiff".toList),
  (".pdf".toList, "application/pdf".toList),
  (".doc".toList, "application/msword".toList),
  (".docx".toList, "application/vnd.openxmlformats-officedocument.wordprocessingml.document".toList),
  (".xls".toList, "application/vnd.ms-excel".toList),
  (".xlsx".toList, "application/vnd.openxmlformats-officedocument.spreadsheetml.sheet".toList),
  (".ppt".toList, "application/vnd.ms-powerpoint".toList),
  (".pptx".toList, "application/vnd.openxmlformats-officedocument.presentationml.presentation".toList),
  (".txt".toList, "text/plain".toList),
  (".html".toList, "text/html".toList),
  (".htm".toList, "text/html".toList),
  (".css".toList, "text/css".toList),
  (".js".toList, "text/javascript".toList),
  (".mjs".toList, "text/javascript".toList),
  (".json".toList, "application/json".toList),
  (".xml".toList, "application/xml".toList),
  (".csv".toList, "text/csv".toList),
  (".md".toList, "text/markdown".toList),
  (".zip".toList, "application/zip".toList),
  (".tar".toList, "application/x-tar".toList),
  (".gz".toList, "application/gzip".toList),
  (".7z".toList, "application/x-7z-compressed".toList),
  (".rar".toList, "application/vnd.rar".toList),
  (".mp3".toList, "audio/mpeg".toList),
  (".wav".toList, "audio/wav".toList),
  (".ogg".toList, "audio/ogg".toList),
  (".m4a".toList, "audio/mp4".toList),
  (".flac".toList, "audio/flac".toList),
  (".mp4".toList, "video/mp4".toList),
  (".avi".toList, "video/x-msvideo".toList),
  (".mov".toList, "video/quicktime".toList),
  (".wmv".toList, "video/x-ms-wmv".toList),
  (".webm".toList, "video/webm".toList),
  (".mkv".toList, "video/x-matroska".toList),
  (".ts".toList, "text/typescript".toList),
  (".tsx".toList, "text/typescript".toList),
  (".py".toList, "text/x-python".toList),
  (".java".toList, "text/x-java".toList),
  (".c".toList, "text/x-c".toList),
  (".cpp".toList, "text/x-c++".toList),
  (".rs".toList, "text/x-rust".toList),
  (".go".toList, "text/x-go".toList)]

/-- Embedding of `detectContentType` (src/index.ts lines 32-103): lowercased
extension looked up in `pathMimeTable`, defaulting to image/jpeg. -/
def detectContentType (filePath : Str) : Str :=
  let ext := (extname filePath).map Char.toLower
  match pathMimeTable.lookup ext with
  | some m => m
  | none => "image/jpeg".toList

/-- Extension table inside `handleUploadFileContent` (src/index.ts
lines 314-328), used by the content-based tool. -/
def contentMimeTable : List (Str × Str) := [
  (".jpg".toList, "image/jpeg".toList),
  (".jpeg".toList, "image/jpeg".toList),
  (".png".toList, "image/png".toList),
  (".gif".toList, "image/gif".toList),
  (".webp".toList, "image/webp".toList),
  (".pdf".toList, "application/pdf".toList),
  (".txt".toList, "text/plain".toList),
  (".json".toList, "application/json".toList),
  (".xml".toList, "application/xml".toList),
  (".zip".toList, "application/zip".toList),
  (".mp3".toList, "audio/mpeg".toList),
  (".mp4".toList, "video/mp4".toList),
  (".wav".toList, "audio/wav".toList)]

/-- Extension lookup of the content-based tool (src/index.ts lines 313-329):
lowercased extension in `contentMimeTable`, defaulting to
application/octet-stream. -/
def contentTypeLookup (filename : Str) : Str :=
  let ext := (extname filename).map Char.toLower
  match contentMimeTable.lookup ext with
  | some m => m
  | none => "application/octet-stream".toList

/-! ### Models of the runtime base64 primitives -/

/-- Membership in the standard base64 alphabet (A-Z, a-z, 0-9, plus, slash),
stated on character codes. -/
def isB64Alpha (c : Char) : Bool :=
  (65 ≤ c.toNat && c.toNat ≤ 90) || (97 ≤ c.toNat && c.toNat ≤ 122) ||
  (48 ≤ c.toNat && c.toNat ≤ 57) || c.toNat == 43 || c.toNat == 47

/-- ASCII whitespace as removed by forgiving-base64 decoding. -/
def isAsciiWs (c : Char) : Bool :=
  c.toNat == 9 || c.toNat == 10 || c.toNat == 12 || c.toNat == 13 || c.toNat == 32

/-- Removal of up to two trailing padding characters. -/
def stripPad (t : Str) : Str :=
  match t.reverse with
  | x :: y :: r =>
    if x = '=' then (if y = '=' then r.reverse else (y :: r).reverse) else t
  | x :: r => if x = '=' then r.reverse else t
  | [] => t

/-- Model of the `atob` validity check: forgiving-base64 decoding succeeds
iff, after removing ASCII whitespace and (when the length is a multiple of
four) up to two trailing padding characters, the length is not congruent to
one modulo four and every character is in the base64 alphabet. -/
def atobOk (s : Str) : Bool :=
  let t := s.filter (fun c => !isAsciiWs c)
  let u := if t.length % 4 == 0 then stripPad t else t
  u.length % 4 != 1 && u.all isB64Alpha

/-- Sextet value of a character under the lenient Buffer.from base64 decoder
(standard and url-safe alphabets); characters outside both alphabets,
padding and whitespace yield none and are skipped. -/
def b64Index (c : Char) : Option Nat :=
  let n := c.toNat
  if 65 ≤ n ∧ n ≤ 90 then some (n - 65)
  else if 97 ≤ n ∧ n ≤ 122 then some (n - 97 + 26)
  else if 48 ≤ n ∧ n ≤ 57 then some (n - 48 + 52)
  else if n = 43 ∨ n = 45 then some 62
  else if n = 47 ∨ n = 95 then some 63
  else none

/-- Regrouping of a sextet stream into bytes: four sextets give three bytes,
a trailing pair gives one byte, a trailing triple gives two, a lone trailing
sextet is dropped. -/
def decodeSextets : List Nat → List Nat
  | s1 :: s2 :: s3 :: s4 :: rest =>
      (s1 * 4 + s2 / 16) :: (s2 % 16 * 16 + s3 / 4) :: (s3 % 4 * 64 + s4) ::
        decodeSextets rest
  | [s1, s2] => [s1 * 4 + s2 / 16]
  | [s1, s2, s3] => [s1 * 4 + s2 / 16, s2 % 16 * 16 + s3 / 4]
  | _ => []

/-- Model of `Buffer.from(s, 'base64')`: a total, lenient decode that skips
characters with no sextet value and regroups the remaining sextets. -/
def bufferFromBase64 (s : Str) : List Nat :=
  decodeSextets (s.filterMap b64Index)

/-- The standard base64 alphabet in order. -/
def b64Chars : Str :=
  "ABCDEFGHIJKLMNOPQRSTUVWXYZabcdefghijklmnopqrstuvwxyz0123456789+/".toList

/-- Character of a sextet value. -/
def sextetChar (n : Nat) : Char := b64Chars.getD (n % 64) 'A'

/-- Canonical padded base64 encoding of a byte sequence, used to state the
round-trip property of the content-based tool. -/
def base64EncodeBytes : List Nat → Str
  | [] => []
  | [a] => [sextetChar (a / 4), sextetChar (a % 4 * 16), '=', '=']
  | [a, b] => [sextetChar (a / 4), sextetChar (a % 4 * 16 + b / 16),
               sextetChar (b % 16 * 4), '=']
  | a :: b :: c :: rest =>
      sextetChar (a / 4) :: sextetChar (a % 4 * 16 + b / 16) ::
      sextetChar (b % 16 * 4 + c / 64) :: sextetChar (c % 64) ::
        base64EncodeBytes rest

/-- Shape of a canonical padded base64 string: complete four-character
blocks of alphabet characters, the last block optionally ending in one or
two padding characters. -/
def goodB64 : Str → Bool
  | a :: b :: c :: d :: rest =>
    if rest = [] then
      isB64Alpha a && isB64Alpha b &&
        ((c == '=' && d == '=') || (isB64Alpha c && d == '=') ||
         (isB64Alpha c && isB64Alpha d))
    else
      isB64Alpha a && isB64Alpha b && isB64Alpha c && isB64Alpha d && goodB64 rest
  | [] => true
  | _ => false

/-! ### The data-URL regular expression -/

/-- Line terminators, which the dot of a JavaScript regular expression does
not match. -/
def isLineTerm (c : Char) : Bool :=
  c.toNat == 10 || c.toNat == 13 || c.toNat == 8232 || c.toNat == 8233

/-- Search loop of the match against the pattern
data colon, lazy group, the literal semicolon base64 comma, greedy group:
the shortest non-empty terminator-free head followed by the literal and a
non-empty terminator-free tail. `acc` is the mime candidate built so far,
`rest` the unconsumed input after it. -/
def findDataSplit (acc rest : Str) : Option (Str × Str) :=
  match rest with
  | [] => none
  | c :: tail =>
    if acc ≠ [] ∧ (";base64,".toList).isPrefixOf rest then
      let payload := rest.drop 8
      if payload ≠ [] ∧ payload.all (fun d => !isLineTerm d) then some (acc, payload)
      else if isLineTerm c then none else findDataSplit (acc ++ [c]) tail
    else if isLineTerm c then none else findDataSplit (acc ++ [c]) tail

/-- Embedding of the data-URL stripping step (src/index.ts lines 278-284):
when the content starts with data colon and the regular expression matches,
the extracted mime fills an absent or empty explicit mime type and the
working content becomes the payload; otherwise both are unchanged. -/
def stripDataUrl (content : Str) (mt : Option Str) : Option Str × Str :=
  if ("data:".toList).isPrefixOf content then
    match findDataSplit [] (content.drop 5) with
    | some (m, payload) =>
        (match mt with
         | some s => if s = [] then some m else some s
         | none => some m, payload)
    | none => (mt, content)
  else (mt, content)

/-! ### Effects, environment, errors -/

/-- One observable side effect of a handler call, in order of occurrence. -/
inductive Effect where
  | curlPut (url : Str) (source : Str) (contentType : Str)
  | writeFile (path : Str) (bytes : List Nat)
  | deleteFile (path : Str) (ok : Bool)
  | logWarning
deriving DecidableEq, Repr

/-- Outcome of the spawned curl process. -/
structure CurlOutcome where
  exitCode : Nat
  stdout : Str
  stderr : Str

/-- Environmental outcomes consumed by one handler call: the existence
check of the filesystem, the value returned by randomUUID, the curl process
outcome, and whether the temp-file deletion succeeds. -/
structure Env where
  fsExists : Str → Bool
  uuid : Str
  curl : CurlOutcome
  deleteOk : Bool

/-- MCP error codes used by the handlers. -/
inductive ECode where
  | invalidParams
  | internalError
deriving DecidableEq, Repr

/-- Decimal rendering of an error code, as in the message text of McpError. -/
def ecodeStr : ECode → Str
  | .invalidParams => "-32602".toList
  | .internalError => "-32603".toList

/-- A typed MCP error as surfaced to the caller. -/
structure McpError where
  code : ECode
  message : Str
deriving DecidableEq, Repr

/-- An exception thrown inside the try block: either a McpError or a plain
Error with a message. -/
inductive Thrown where
  | mcp (e : McpError)
  | err (message : Str)

/-- The `.message` text of a thrown value as read by the catch block; the
McpError constructor prefixes its message with the code. -/
def thrownMessage : Thrown → Str
  | .mcp e => "MCP error ".toList ++ ecodeStr e.code ++ ": ".toList ++ e.message
  | .err m => m

/-- Truthiness of an optional string argument (absent or empty is falsy). -/
def optFalsy : Option Str → Bool
  | none => true
  | some s => s = []

/-- The fixed storage origin and bucket prefix of both handlers. -/
def urlBase : Str := "https://s3.reily.app/public/".toList

/-! ### The path-based handler -/

/-- Success payload of upload_file (src/index.ts lines 237-246). -/
structure UploadFileResult where
  file_path : Str
  folder_id : Str
  original_filename : Str
  content_type : Str
  remote_path : Str
  url : Str
  message : Str
deriving DecidableEq, Repr

/-- Body of the try block of `handleUploadFile` (src/index.ts lines 183-249):
existence check, destination key generation, mime resolution, the curl PUT,
and result assembly. -/
def uploadFileInner (env : Env) (file_path : Str) (content_type? : Option Str) :
    Except Thrown UploadFileResult × List Effect :=
  if env.fsExists file_path = false then
    (.error (.mcp ⟨.invalidParams, "File not found: ".toList ++ file_path⟩), [])
  else
    let folderId := env.uuid
    let originalFileName := basename file_path
    let remotePath := folderId ++ "/".toList ++ originalFileName
    let content_type :=
      match content_type? with
      | some c => if c = [] then detectContentType file_path else c
      | none => detectContentType file_path
    let url := urlBase ++ remotePath
    let effs := [Effect.curlPut url file_path content_type]
    if env.curl.exitCode ≠ 0 then
      (.error (.err ("Upload failed: ".toList ++ env.curl.stderr)), effs)
    else
      (.ok { file_path := file_path, folder_id := folderId,
             original_filename := originalFileName, content_type := content_type,
             remote_path := remotePath, url := url,
             message := "File uploaded successfully to ".toList ++ url }, effs)

/-- Embedding of `handleUploadFile` (src/index.ts lines 169-256): the falsy
check of file_path throws InvalidParams outside the try block; every
exception of the try body, a McpError included, is re-wrapped by the catch
block as an InternalError whose message appends the message of the cause. -/
def handleUploadFile (env : Env) (file_path : Str) (content_type? : Option Str) :
    Except McpError UploadFileResult × List Effect :=
  if file_path = [] then
    (.error ⟨.invalidParams, "file_path is required".toList⟩, [])
  else
    match uploadFileInner env file_path content_type? with
    | (.ok r, tr) => (.ok r, tr)
    | (.error t, tr) =>
        (.error ⟨.internalError,
                 "Failed to upload file: ".toList ++ thrownMessage t⟩, tr)

/-! ### The content-based handler -/

/-- Success payload of upload_file_content (src/index.ts lines 373-382). -/
structure UploadContentResult where
  filename : Str
  folder_id : Str
  mime_type : Str
  remote_path : Str
  url : Str
  content_size : Nat
  message : Str
deriving DecidableEq, Repr

/-- Body of the try block of `handleUploadFileContent` (src/index.ts lines
273-385): data-URL stripping, the bounded atob validity check, destination
key generation, full decode, temp-file staging, mime resolution, the curl
PUT, unconditional best-effort cleanup, and result assembly. -/
def uploadContentInner (env : Env) (content filename : Str)
    (mime_type? : Option Str) :
    Except Thrown UploadContentResult × List Effect :=
  let stripped := stripDataUrl content mime_type?
  let mt1 := stripped.1
  let base64Content := stripped.2
  if atobOk (base64Content.take 100) = false then
    (.error (.mcp ⟨.invalidParams, "Invalid base64 content provided".toList⟩), [])
  else
    let folderId := env.uuid
    let originalFileName := basename filename
    let remotePath := folderId ++ "/".toList ++ originalFileName
    let buffer := bufferFromBase64 base64Content
    let tempFilePath := "/tmp/".toList ++ folderId ++ "_".toList ++ originalFileName
    let detectedMimeType :=
      match mt1 with
      | some m => if m = [] then contentTypeLookup filename else m
      | none => contentTypeLookup filename
    let url := urlBase ++ remotePath
    let effs := [Effect.writeFile tempFilePath buffer,
                 Effect.curlPut url tempFilePath detectedMimeType,
                 Effect.deleteFile tempFilePath env.deleteOk] ++
                (if env.deleteOk then [] else [Effect.logWarning])
    if env.curl.exitCode ≠ 0 then
      (.error (.err ("Upload failed: ".toList ++ env.curl.stderr)), effs)
    else
      (.ok { filename := originalFileName, folder_id := folderId,
             mime_type := detectedMimeType, remote_path := remotePath,
             url := url, content_size := buffer.length,
             message := "File content uploaded successfully to ".toList ++ url },
       effs)

/-- Embedding of `handleUploadFileContent` (src/index.ts lines 258-392): the
falsy check of content and filename throws InvalidParams outside the try
block; every exception of the try body, a McpError included, is re-wrapped
by the catch block as an InternalError whose message appends the message of
the cause. -/
def handleUploadFileContent (env : Env) (content filename : Str)
    (mime_type? : Option Str) :
    Except McpError UploadContentResult × List Effect :=
  if content = [] ∨ filename = [] then
    (.error ⟨.invalidParams, "content and filename are required".toList⟩, [])
  else
    match uploadContentInner env content filename mime_type? with
    | (.ok r, tr) => (.ok r, tr)
    | (.error t, tr) =>
        (.error ⟨.internalError,
                 "Failed to upload file content: ".toList ++ thrownMessage t⟩, tr)

/-! ### Derived observations on a call -/

/-- Application of one traced effect to a filesystem existence predicate. -/
def applyEffect (fs : Str → Bool) : Effect → (Str → Bool)
  | .writeFile p _ => fun q => if q = p then true else fs q
  | .deleteFile p true => fun q => if q = p then false else fs q
  | _ => fs

/-- Filesystem existence predicate after a trace of effects. -/
def fsAfter (fs : Str → Bool) (tr : List Effect) : Str → Bool :=
  tr.foldl applyEffect fs

/-- Recognizer of the outbound PUT effect. -/
def isPut : Effect → Bool
  | .curlPut _ _ _ => true
  | _ => false

/-- Recognizer of the temp-file staging effect. -/
def isWrite : Effect → Bool
  | .writeFile _ _ => true
  | _ => false

/-- Resolved content type of the path-based handler: an absent or empty
explicit type falls back to `detectContentType`. -/
def pathMime (p : Str) (ct? : Option Str) : Str :=
  match ct? with
  | some c => if c = [] then detectContentType p else c
  | none => detectContentType p

/-- Resolved mime type of the content-based handler: the explicit or
prefix-derived type left by `stripDataUrl`, falling back to the extension
lookup when absent or empty. -/
def contentMime (content : Str) (filename : Str) (mt? : Option Str) : Str :=
  match (stripDataUrl content mt?).1 with
  | some m => if m = [] then contentTypeLookup filename else m
  | none => contentTypeLookup filename

/-- Destination key of a call: the generated folder identifier, a slash and
the base filename. -/
def destKey (env : Env) (name : Str) : Str :=
  env.uuid ++ "/".toList ++ basename name

/-- Temp file path staged by the content-based handler. -/
def tmpPath (env : Env) (filename : Str) : Str :=
  "/tmp/".toList ++ env.uuid ++ "_".toList ++ basename filename

/-- Mime type extracted from an inline data-URL prefix, if any. -/
def dataUrlMime (content : Str) : Option Str :=
  if ("data:".toList).isPrefixOf content then
    (findDataSplit [] (content.drop 5)).map Prod.fst
  else none

/-- Lower levels of the spec mime precedence: inline-data prefix type, then
extension lookup, then the octet-stream default. -/
def specMimeLower (content filename : Str) : Str :=
  match dataUrlMime content with
  | some m => m
  | none =>
    match contentMimeTable.lookup ((extname filename).map Char.toLower) with
    | some v => v
    | none => "application/octet-stream".toList

/-- Definition following the words of the spec for the mime precedence of
the content-based tool: an explicitly supplied non-empty mime argument wins;
otherwise the type extracted from an inline-data prefix; otherwise the
lowercased-extension lookup; otherwise application/octet-stream — each level
applying only when every higher level is absent. -/
def specMimeResolve (explicit : Option Str) (content filename : Str) : Str :=
  match explicit with
  | some m => if m ≠ [] then m else specMimeLower content filename
  | none => specMimeLower content filename

/-- Concrete environment: every file exists, uuid u, transfer succeeds,
deletion succeeds. -/
def envOkAll : Env :=
  { fsExists := fun _ => true, uuid := "u".toList,
    curl := ⟨0, [], []⟩, deleteOk := true }

/-- Concrete environment: no file exists, transfer would succeed. -/
def envNoFs : Env :=
  { fsExists := fun _ => false, uuid := "u".toList,
    curl := ⟨0, [], []⟩, deleteOk := true }

/-- Concrete environment: transfer fails with exit code 22 and a diagnostic
line on stderr. -/
def envCurlFail : Env :=
  { fsExists := fun _ => true, uuid := "u".toList,
    curl := ⟨22, [], "curl: (22) error".toList⟩, deleteOk := true }

/-- Concrete environment: transfer succeeds but the temp-file deletion
fails. -/
def envNoDelete : Env :=
  { fsExists := fun _ => false, uuid := "u".toList,
    curl := ⟨0, [], []⟩, deleteOk := false }

/-- Concrete environment with a second, distinct uuid. -/
def envOkAll2 : Env :=
  { fsExists := fun _ => true, uuid := "v".toList,
    curl := ⟨0, [], []⟩, deleteOk := true }

/-- Expected success record of upload_file for /tmp/a.png under envOkAll. -/
def pngResult : UploadFileResult :=
  { file_path := "/tmp/a.png".toList, folder_id := "u".toList,
    original_filename := "a.png".toList, content_type := "image/png".toList,
    remote_path := "u/a.png".toList,
    url := "https://s3.reily.app/public/u/a.png".toList,
    message := "File uploaded successfully to https://s3.reily.app/public/u/a.png".toList }

/-- Expected success record of upload_file_content for aGVsbG8= and
hello.txt under envOkAll. -/
def helloResult : UploadContentResult :=
  { filename := "hello.txt".toList, folder_id := "u".toList,
    mime_type := "text/plain".toList, remote_path := "u/hello.txt".toList,
    url := "https://s3.reily.app/public/u/hello.txt".toList,
    content_size := 5,
    message := "File content uploaded successfully to https://s3.reily.app/public/u/hello.txt".toList }

/-- Content whose first hundred characters are valid base64 while the tail
is not base64 at all. -/
def lateGarbage : Str := List.replicate 100 'A' ++ "!!!not-base64!!!".toList

/-! ### Characterization lemmas for the path-based handler -/

/-- On a missing file, the path handler performs no effect and returns the
re-wrapped internal error. -/
theorem uploadFile_missing (env : Env) (p : Str) (ct? : Option Str)
    (hp : p ≠ []) (hex : env.fsExists p = false) :
    handleUploadFile env p ct? =
      (.error ⟨.internalError,
        ("Failed to upload file: MCP error -32602: File not found: ").toList ++ p⟩,
       []) := by
  simp [handleUploadFile, uploadFileInner, hp, hex, thrownMessage, ecodeStr]

/-- On an existing file with a succeeding transfer, the path handler issues
one PUT and returns the assembled success record. -/
theorem uploadFile_ok (env : Env) (p : Str) (ct? : Option Str)
    (hp : p ≠ []) (hex : env.fsExists p = true) (hc : env.curl.exitCode = 0) :
    handleUploadFile env p ct? =
      (.ok { file_path := p, folder_id := env.uuid,
             original_filename := basename p,
             content_type := pathMime p ct?,
             remote_path := destKey env p,
             url := urlBase ++ destKey env p,
             message := "File uploaded successfully to ".toList ++
               (urlBase ++ destKey env p) },
       [Effect.curlPut (urlBase ++ destKey env p) p (pathMime p ct?)]) := by
  simp [handleUploadFile, uploadFileInner, hp, hex, hc, pathMime, destKey]

/-- On an existing file with a failing transfer, the path handler issues one
PUT and returns the internal error carrying the captured stderr text. -/
theorem uploadFile_curlFail (env : Env) (p : Str) (ct? : Option Str)
    (hp : p ≠ []) (hex : env.fsExists p = true) (hc : env.curl.exitCode ≠ 0) :
    handleUploadFile env p ct? =
      (.error ⟨.internalError,
        ("Failed to upload file: Upload failed: ").toList ++ env.curl.stderr⟩,
       [Effect.curlPut (urlBase ++ destKey env p) p (pathMime p ct?)]) := by
  simp [handleUploadFile, uploadFileInner, hp, hex, hc, pathMime, destKey,
    thrownMessage]

/-! ### Characterization lemmas for the content-based handler -/

/-- On malformed base64, the content handler performs no effect and returns
the re-wrapped internal error. -/
theorem uploadContent_badBase64 (env : Env) (content filename : Str)
    (mt? : Option Str) (hc : content ≠ []) (hf : filename ≠ [])
    (hb : atobOk ((stripDataUrl content mt?).2.take 100) = false) :
    handleUploadFileContent env content filename mt? =
      (.error ⟨.internalError,
        ("Failed to upload file content: MCP error -32602: " ++
         "Invalid base64 content provided").toList⟩,
       []) := by
  simp [handleUploadFileContent, uploadContentInner, hc, hf, hb,
    thrownMessage, ecodeStr]

/-- On well-formed input with a succeeding transfer, the content handler
stages, transfers, cleans up, and returns the assembled success record. -/
theorem uploadContent_ok (env : Env) (content filename : Str)
    (mt? : Option Str) (hc : content ≠ []) (hf : filename ≠ [])
    (hb : atobOk ((stripDataUrl content mt?).2.take 100) = true)
    (he : env.curl.exitCode = 0) :
    handleUploadFileContent env content filename mt? =
      (.ok { filename := basename filename, folder_id := env.uuid,
             mime_type := contentMime content filename mt?,
             remote_path := destKey env filename,
             url := urlBase ++ destKey env filename,
             content_size := (bufferFromBase64 (stripDataUrl content mt?).2).length,
             message := "File content uploaded successfully to ".toList ++
               (urlBase ++ destKey env filename) },
       [Effect.writeFile (tmpPath env filename)
          (bufferFromBase64 (stripDataUrl content mt?).2),
        Effect.curlPut (urlBase ++ destKey env filename) (tmpPath env filename)
          (contentMime content filename mt?),
        Effect.deleteFile (tmpPath env filename) env.deleteOk] ++
       (if env.deleteOk then [] else [Effect.logWarning])) := by
  simp [handleUploadFileContent, uploadContentInner, hc, hf, hb, he,
    contentMime, destKey, tmpPath]

/-- On well-formed input with a failing transfer, the content handler still
stages, transfers and cleans up, and returns the internal error carrying the
captured stderr text. -/
theorem uploadContent_curlFail (env : Env) (content filename : Str)
    (mt? : Option Str) (hc : content ≠ []) (hf : filename ≠ [])
    (hb : atobOk ((stripDataUrl content mt?).2.take 100) = true)
    (he : env.curl.exitCode ≠ 0) :
    handleUploadFileContent env content filename mt? =
      (.error ⟨.internalError,
        ("Failed to upload file content: Upload failed: ").toList ++
          env.curl.stderr⟩,
       [Effect.writeFile (tmpPath env filename)
          (bufferFromBase64 (stripDataUrl content mt?).2),
        Effect.curlPut (urlBase ++ destKey env filename) (tmpPath env filename)
          (contentMime content filename mt?),
        Effect.deleteFile (tmpPath env filename) env.deleteOk] ++
       (if env.deleteOk then [] else [Effect.logWarning])) := by
  simp [handleUploadFileContent, uploadContentInner, hc, hf, hb, he,
    contentMime, destKey, tmpPath, thrownMessage]

/-- Inversion of a successful path-based call: the guards passed and the
result is the assembled record. -/
theorem uploadFile_ok_inv (env : Env) (p : Str) (ct? : Option Str)
    (r : UploadFileResult) (h : (handleUploadFile env p ct?).1 = .ok r) :
    p ≠ [] ∧ env.fsExists p = true ∧ env.curl.exitCode = 0 ∧
    r = { file_path := p, folder_id := env.uuid,
          original_filename := basename p, content_type := pathMime p ct?,
          remote_path := destKey env p, url := urlBase ++ destKey env p,
          message := "File uploaded successfully to ".toList ++
            (urlBase ++ destKey env p) } := by
  by_cases hp : p = []
  · simp [handleUploadFile, hp] at h
  · by_cases hex : env.fsExists p = true
    · by_cases hcurl : env.curl.exitCode = 0
      · rw [uploadFile_ok env p ct? hp hex hcurl] at h
        exact ⟨hp, hex, hcurl, by simpa using h.symm⟩
      · rw [uploadFile_curlFail env p ct? hp hex hcurl] at h
        simp at h
    · have hex' : env.fsExists p = false := by
        simpa using hex
      rw [uploadFile_missing env p ct? hp hex'] at h
      simp at h

/-- Inversion of a successful content-based call: the guards passed and the
result is the assembled record. -/
theorem uploadContent_ok_inv (env : Env) (content filename : Str)
    (mt? : Option Str) (r : UploadContentResult)
    (h : (handleUploadFileContent env content filename mt?).1 = .ok r) :
    content ≠ [] ∧ filename ≠ [] ∧
    atobOk ((stripDataUrl content mt?).2.take 100) = true ∧
    env.curl.exitCode = 0 ∧
    r = { filename := basename filename, folder_id := env.uuid,
          mime_type := contentMime content filename mt?,
          remote_path := destKey env filename,
          url := urlBase ++ destKey env filename,
          content_size := (bufferFromBase64 (stripDataUrl content mt?).2).length,
          message := "File content uploaded successfully to ".toList ++
            (urlBase ++ destKey env filename) } := by
  by_cases hc : content = []
  · simp [handleUploadFileContent, hc] at h
  · by_cases hf : filename = []
    · simp [handleUploadFileContent, hf] at h
    · by_cases hb : atobOk ((stripDataUrl content mt?).2.take 100) = true
      · by_cases hcurl : env.curl.exitCode = 0
        · rw [uploadContent_ok env content filename mt? hc hf hb hcurl] at h
          exact ⟨hc, hf, hb, hcurl, by simpa using h.symm⟩
        · rw [uploadContent_curlFail env content filename mt? hc hf hb hcurl] at h
          simp at h
      · have hb' : atobOk ((stripDataUrl content mt?).2.take 100) = false := by
          simpa using hb
        rw [uploadContent_badBase64 env content filename mt? hc hf hb'] at h
        simp at h

/-- The mime candidate returned by the data-URL search is never empty. -/
theorem findDataSplit_fst_ne_nil (rest : Str) :
    ∀ acc m pl, findDataSplit acc rest = some (m, pl) → m ≠ [] := by
  induction rest with
  | nil => intro acc m pl h; simp [findDataSplit] at h
  | cons c tail ih =>
    intro acc m pl h
    rw [findDataSplit] at h
    by_cases h1 : acc ≠ [] ∧ (";base64,".toList).isPrefixOf (c :: tail)
    · rw [if_pos h1] at h
      by_cases h2 : (c :: tail).drop 8 ≠ [] ∧
          ((c :: tail).drop 8).all (fun d => !isLineTerm d)
      · rw [if_pos h2] at h
        obtain ⟨hm, _⟩ := Prod.mk.injEq .. ▸ Option.some.injEq .. ▸ h
        exact hm ▸ h1.1
      · rw [if_neg h2] at h
        by_cases h3 : isLineTerm c
        · simp [h3] at h
        · rw [if_neg (by simpa using h3)] at h
          exact ih (acc ++ [c]) m pl h
    · rw [if_neg h1] at h
      by_cases h3 : isLineTerm c
      · simp [h3] at h
      · rw [if_neg (by simpa using h3)] at h
        exact ih (acc ++ [c]) m pl h

/-- The source mime resolution of the content-based handler agrees with the
spec precedence on every input. -/
theorem contentMime_eq_spec (content filename : Str) (mt? : Option Str) :
    contentMime content filename mt? = specMimeResolve mt? content filename := by
  by_cases hpre : ['d', 'a', 't', 'a', ':'] <+: content
  · cases hsplit : findDataSplit [] (content.drop 5) with
    | none =>
      cases mt? with
      | none =>
        simp [contentMime, stripDataUrl, specMimeResolve, specMimeLower,
          dataUrlMime, hpre, hsplit, contentTypeLookup]
      | some s =>
        by_cases hs : s = [] <;>
          simp [contentMime, stripDataUrl, specMimeResolve, specMimeLower,
            dataUrlMime, hpre, hsplit, hs, contentTypeLookup]
    | some pr =>
      obtain ⟨m, pl⟩ := pr
      have hm : m ≠ [] := findDataSplit_fst_ne_nil _ _ _ _ hsplit
      cases mt? with
      | none =>
        simp [contentMime, stripDataUrl, specMimeResolve, specMimeLower,
          dataUrlMime, hpre, hsplit, hm]
      | some s =>
        by_cases hs : s = [] <;>
          simp [contentMime, stripDataUrl, specMimeResolve, specMimeLower,
            dataUrlMime, hpre, hsplit, hs, hm]
  · cases mt? with
    | none =>
      simp [contentMime, stripDataUrl, specMimeResolve, specMimeLower,
        dataUrlMime, hpre, contentTypeLookup]
    | some s =>
      by_cases hs : s = [] <;>
        simp [contentMime, stripDataUrl, specMimeResolve, specMimeLower,
          dataUrlMime, hpre, hs, contentTypeLookup]

/-! ### Claim theorems -/

/-- C1. The claim says a call of upload_file on a non-empty path naming a
missing file fails with an InvalidParams error mentioning the path and
issues no curl PUT. The code indeed issues no PUT and mentions the path,
but the McpError with code InvalidParams thrown inside the try block is
caught by the catch block of the handler itself and re-wrapped as an
InternalError, so the caller receives code InternalError, against both the
spec and the evident intent of the inner throw. This theorem evaluates the
embedded handler at the failing input. -/
theorem c1_missing_file_wrapped_as_internal_error :
    handleUploadFile envNoFs "/missing.txt".toList none =
      (.error ⟨.internalError,
        ("Failed to upload file: MCP error -32602: " ++
         "File not found: /missing.txt").toList⟩,
       []) := by
  decide

/-- C2. The claim says malformed base64 content yields an InvalidParams
error saying the base64 content is invalid, and no temporary file is
created. The code creates no temp file (the effect trace is empty) and the
message text is present, but the InvalidParams McpError thrown inside the
try block is re-wrapped by the catch block of the handler as an
InternalError, so the caller receives code InternalError. This theorem
evaluates the embedded handler at the failing input. -/
theorem c2_bad_base64_wrapped_as_internal_error :
    handleUploadFileContent envNoFs "!!!not-base64!!!".toList "a.txt".toList none =
      (.error ⟨.internalError,
        ("Failed to upload file content: MCP error -32602: " ++
         "Invalid base64 content provided").toList⟩,
       []) := by
  decide

/-- C3 counterexample. A content upload in an environment where the
temp-file deletion fails still succeeds, yet the staged temporary file
still exists on disk after the call, refuting the unconditional clause
that after any such call the staged file no longer exists. -/
theorem c3_counterexample_failed_deletion_leaves_file :
    (handleUploadFileContent envNoDelete "aGVsbG8=".toList "h.txt".toList none).1.isOk
      = true ∧
    fsAfter (fun _ => false)
      (handleUploadFileContent envNoDelete "aGVsbG8=".toList "h.txt".toList none).2
      "/tmp/u_h.txt".toList = true := by
  constructor
  · decide
  · decide

/-- C3 as amended: for every content upload that reaches the staging step,
the effect trace is exactly the staging write, then the transfer PUT, then
the deletion attempt (plus a warning log when the deletion fails), whatever
the transfer outcome; the outcome of the call does not depend on whether
the deletion succeeds; and whenever the deletion succeeds the staged file
no longer exists afterwards. -/
theorem c3_cleanup_best_effort (env : Env) (content filename : Str)
    (mt? : Option Str) (hc : content ≠ []) (hf : filename ≠ [])
    (hb : atobOk ((stripDataUrl content mt?).2.take 100) = true) :
    ((handleUploadFileContent env content filename mt?).2 =
      [Effect.writeFile (tmpPath env filename)
         (bufferFromBase64 (stripDataUrl content mt?).2),
       Effect.curlPut (urlBase ++ destKey env filename) (tmpPath env filename)
         (contentMime content filename mt?),
       Effect.deleteFile (tmpPath env filename) env.deleteOk] ++
      (if env.deleteOk then [] else [Effect.logWarning])) ∧
    (∀ b₁ b₂ : Bool,
      (handleUploadFileContent { env with deleteOk := b₁ } content filename mt?).1 =
      (handleUploadFileContent { env with deleteOk := b₂ } content filename mt?).1) ∧
    (∀ fs₀ : Str → Bool, env.deleteOk = true →
      fsAfter fs₀ (handleUploadFileContent env content filename mt?).2
        (tmpPath env filename) = false) := by
  refine ⟨?_, ?_, ?_⟩
  · by_cases he : env.curl.exitCode = 0
    · rw [uploadContent_ok env content filename mt? hc hf hb he]
    · rw [uploadContent_curlFail env content filename mt? hc hf hb he]
  · intro b₁ b₂
    by_cases he : env.curl.exitCode = 0
    · rw [uploadContent_ok { env with deleteOk := b₁ } content filename mt? hc hf hb he,
          uploadContent_ok { env with deleteOk := b₂ } content filename mt? hc hf hb he]
      simp [destKey, tmpPath]
    · rw [uploadContent_curlFail { env with deleteOk := b₁ } content filename mt? hc hf hb he,
          uploadContent_curlFail { env with deleteOk := b₂ } content filename mt? hc hf hb he]
  · intro fs₀ hdel
    by_cases he : env.curl.exitCode = 0
    · rw [uploadContent_ok env content filename mt? hc hf hb he]
      simp [hdel, fsAfter, applyEffect]
    · rw [uploadContent_curlFail env content filename mt? hc hf hb he]
      simp [hdel, fsAfter, applyEffect]

/-- C3 witness: the amended theorem applied to a concrete successful call
with a succeeding deletion; the staged temp file does not exist after the
call. -/
theorem c3_cleanup_best_effort_witness :
    fsAfter (fun _ => false)
      (handleUploadFileContent envOkAll "aGVsbG8=".toList "h.txt".toList none).2
      (tmpPath envOkAll "h.txt".toList) = false :=
  (c3_cleanup_best_effort envOkAll "aGVsbG8=".toList "h.txt".toList none
    (by decide) (by decide) (by decide)).2.2 (fun _ => false) rfl

/-- C5. Every successful upload_file call yields a destination key equal to
the generated folder identifier followed by a slash and the base filename of
the path, and a public URL equal to the fixed origin and bucket prefix
followed by that key; calls whose environments generated distinct
identifiers yield distinct folder identifiers. Generation of the random
UUID is modelled as the environment supplying the value returned by
randomUUID for the call. -/
theorem c5_destination_key_and_url (env : Env) (p : Str) (ct? : Option Str)
    (r : UploadFileResult) (h : (handleUploadFile env p ct?).1 = .ok r) :
    r.folder_id = env.uuid ∧
    r.remote_path = env.uuid ++ "/".toList ++ basename p ∧
    r.url = "https://s3.reily.app/public/".toList ++
      (env.uuid ++ "/".toList ++ basename p) ∧
    (∀ (env' : Env) (p' : Str) (ct?' : Option Str) (r' : UploadFileResult),
      (handleUploadFile env' p' ct?').1 = .ok r' → env.uuid ≠ env'.uuid →
      r.folder_id ≠ r'.folder_id) := by
  obtain ⟨-, -, -, hr⟩ := uploadFile_ok_inv env p ct? r h
  subst hr
  refine ⟨rfl, rfl, rfl, ?_⟩
  intro env' p' ct?' r' h' hne
  obtain ⟨-, -, -, hr'⟩ := uploadFile_ok_inv env' p' ct?' r' h'
  subst hr'
  simpa [destKey] using hne

/-- C5 witness: the theorem applied to a successful concrete call. -/
theorem c5_destination_key_and_url_witness :
    (handleUploadFile envOkAll "/tmp/a.png".toList none).1 = .ok pngResult ∧
    (pngResult.folder_id = envOkAll.uuid ∧
     pngResult.remote_path = envOkAll.uuid ++ "/".toList ++ basename "/tmp/a.png".toList ∧
     pngResult.url = "https://s3.reily.app/public/".toList ++
       (envOkAll.uuid ++ "/".toList ++ basename "/tmp/a.png".toList) ∧
     (∀ (env' : Env) (p' : Str) (ct?' : Option Str) (r' : UploadFileResult),
       (handleUploadFile env' p' ct?').1 = .ok r' → envOkAll.uuid ≠ env'.uuid →
       pngResult.folder_id ≠ r'.folder_id)) :=
  ⟨by decide,
   c5_destination_key_and_url envOkAll "/tmp/a.png".toList none pngResult (by decide)⟩

/-- When the content carries no extractable inline-data mime, the stripping
step leaves both the mime argument and the content unchanged. -/
theorem stripDataUrl_of_noMime (c : Str) (mt? : Option Str)
    (h : dataUrlMime c = none) : stripDataUrl c mt? = (mt?, c) := by
  by_cases hpre : ['d', 'a', 't', 'a', ':'] <+: c
  · cases hsplit : findDataSplit [] (c.drop 5) with
    | none => simp [stripDataUrl, hpre, hsplit]
    | some pr => simp [dataUrlMime, hpre, hsplit] at h
  · simp [stripDataUrl, hpre]

/-- C4. For every successful upload_file_content call, the mime type used
for the transfer and reported in the result equals the spec precedence:
explicit non-empty mime argument, else inline-data prefix type, else
lowercased-extension lookup in the content table, else
application/octet-stream, each level applying only when every higher level
is absent. -/
theorem c4_mime_precedence (env : Env) (content filename : Str)
    (mt? : Option Str) (r : UploadContentResult)
    (h : (handleUploadFileContent env content filename mt?).1 = .ok r) :
    r.mime_type = specMimeResolve mt? content filename := by
  obtain ⟨-, -, -, -, hr⟩ := uploadContent_ok_inv env content filename mt? r h
  subst hr
  simpa using contentMime_eq_spec content filename mt?

/-- C4 witness: the theorem applied to a successful concrete call with no
explicit mime and no data prefix; the extension lookup yields text/plain. -/
theorem c4_mime_precedence_witness :
    (handleUploadFileContent envOkAll "aGVsbG8=".toList "hello.txt".toList none).1 =
      .ok helloResult ∧
    helloResult.mime_type = specMimeResolve none "aGVsbG8=".toList "hello.txt".toList :=
  ⟨by decide,
   c4_mime_precedence envOkAll "aGVsbG8=".toList "hello.txt".toList none
     helloResult (by decide)⟩

/-- C6. When the lowercased extension is missing from the respective table,
the path-based resolver returns image/jpeg and the content-based one
application/octet-stream; both resolvers depend only on the filename
extension, never on file bytes; and the resolved defaults surface in the
success records of the handlers when no explicit type and (for the content
tool) no data prefix is supplied. -/
theorem c6_unknown_extension_defaults :
    (∀ p, pathMimeTable.lookup ((extname p).map Char.toLower) = none →
      detectContentType p = "image/jpeg".toList) ∧
    (∀ f, contentMimeTable.lookup ((extname f).map Char.toLower) = none →
      contentTypeLookup f = "application/octet-stream".toList) ∧
    (∀ p q, extname p = extname q →
      detectContentType p = detectContentType q ∧
      contentTypeLookup p = contentTypeLookup q) ∧
    (∀ (env : Env) (p : Str) (r : UploadFileResult),
      (handleUploadFile env p none).1 = .ok r →
      pathMimeTable.lookup ((extname p).map Char.toLower) = none →
      r.content_type = "image/jpeg".toList) ∧
    (∀ (env : Env) (c f : Str) (r : UploadContentResult),
      (handleUploadFileContent env c f none).1 = .ok r →
      dataUrlMime c = none →
      contentMimeTable.lookup ((extname f).map Char.toLower) = none →
      r.mime_type = "application/octet-stream".toList) := by
  refine ⟨?_, ?_, ?_, ?_, ?_⟩
  · intro p h; simp [detectContentType, h]
  · intro f h; simp [contentTypeLookup, h]
  · intro p q h
    constructor
    · simp [detectContentType, h]
    · simp [contentTypeLookup, h]
  · intro env p r h hl
    obtain ⟨-, -, -, hr⟩ := uploadFile_ok_inv env p none r h
    subst hr
    simp [pathMime, detectContentType, hl]
  · intro env c f r h hdm hl
    obtain ⟨-, -, -, -, hr⟩ := uploadContent_ok_inv env c f none r h
    subst hr
    simp [contentMime, stripDataUrl_of_noMime c none hdm, contentTypeLookup, hl]

/-- C6 witness: a concrete unknown extension yields the two distinct
defaults. -/
theorem c6_unknown_extension_defaults_witness :
    (pathMimeTable.lookup ((extname "x.xyz".toList).map Char.toLower) = none ∧
     detectContentType "x.xyz".toList = "image/jpeg".toList) ∧
    (contentMimeTable.lookup ((extname "x.xyz".toList).map Char.toLower) = none ∧
     contentTypeLookup "x.xyz".toList = "application/octet-stream".toList) :=
  ⟨⟨by decide, c6_unknown_extension_defaults.1 "x.xyz".toList (by decide)⟩,
   ⟨by decide, c6_unknown_extension_defaults.2.1 "x.xyz".toList (by decide)⟩⟩

/-- C8 counterexample. A call of upload_file whose validation fails (missing
file) performs no effect at all, in particular zero outbound PUTs, refuting
the clause that each call of either upload operation issues exactly one
outbound PUT. -/
theorem c8_counterexample_no_put_on_validation_failure :
    (handleUploadFile envNoFs "/missing.png".toList none).2.countP isPut = 0 := by
  decide

/-- C8 as amended: every call of either upload operation issues at most one
outbound PUT (no retry); every call that reaches the Transfer step issues
exactly one; and a non-zero curl exit surfaces as a single synchronous
internal error whose message carries the captured stderr text. -/
theorem c8_single_put_no_retry :
    (∀ (env : Env) (p : Str) (ct? : Option Str),
      (handleUploadFile env p ct?).2.countP isPut ≤ 1 ∧
      (p ≠ [] → env.fsExists p = true →
        (handleUploadFile env p ct?).2.countP isPut = 1 ∧
        (env.curl.exitCode ≠ 0 →
          (handleUploadFile env p ct?).1 =
            .error ⟨.internalError,
              ("Failed to upload file: Upload failed: ").toList ++
                env.curl.stderr⟩))) ∧
    (∀ (env : Env) (c f : Str) (mt? : Option Str),
      (handleUploadFileContent env c f mt?).2.countP isPut ≤ 1 ∧
      (c ≠ [] → f ≠ [] → atobOk ((stripDataUrl c mt?).2.take 100) = true →
        (handleUploadFileContent env c f mt?).2.countP isPut = 1 ∧
        (env.curl.exitCode ≠ 0 →
          (handleUploadFileContent env c f mt?).1 =
            .error ⟨.internalError,
              ("Failed to upload file content: Upload failed: ").toList ++
                env.curl.stderr⟩))) := by
  constructor
  · intro env p ct?
    by_cases hp : p = []
    · exact ⟨by simp [handleUploadFile, hp], fun hp' _ => absurd hp hp'⟩
    · by_cases hex : env.fsExists p = true
      · by_cases hcu : env.curl.exitCode = 0
        · rw [uploadFile_ok env p ct? hp hex hcu]
          exact ⟨by simp [isPut], fun _ _ =>
            ⟨by simp [isPut], fun hne => absurd hcu hne⟩⟩
        · rw [uploadFile_curlFail env p ct? hp hex hcu]
          exact ⟨by simp [isPut], fun _ _ => ⟨by simp [isPut], fun _ => rfl⟩⟩
      · have hex' : env.fsExists p = false := by simpa using hex
        rw [uploadFile_missing env p ct? hp hex']
        exact ⟨by simp, fun _ hex'' => by rw [hex'] at hex''; cases hex''⟩
  · intro env c f mt?
    by_cases hcf : c = [] ∨ f = []
    · refine ⟨by simp [handleUploadFileContent, hcf], fun hc hf _ => ?_⟩
      rcases hcf with h | h
      · exact absurd h hc
      · exact absurd h hf
    · push_neg at hcf
      obtain ⟨hc, hf⟩ := hcf
      by_cases hb : atobOk ((stripDataUrl c mt?).2.take 100) = true
      · by_cases hcu : env.curl.exitCode = 0
        · rw [uploadContent_ok env c f mt? hc hf hb hcu]
          refine ⟨?_, fun _ _ _ => ⟨?_, fun hne => absurd hcu hne⟩⟩ <;>
            by_cases hd : env.deleteOk <;> simp [isPut, hd]
        · rw [uploadContent_curlFail env c f mt? hc hf hb hcu]
          refine ⟨?_, fun _ _ _ => ⟨?_, fun _ => rfl⟩⟩ <;>
            by_cases hd : env.deleteOk <;> simp [isPut, hd]
      · have hb' : atobOk ((stripDataUrl c mt?).2.take 100) = false := by
          simpa using hb
        rw [uploadContent_badBase64 env c f mt? hc hf hb']
        exact ⟨by simp, fun _ _ hb'' => by rw [hb'] at hb''; cases hb''⟩

/-- C8 witness: a concrete call reaching the Transfer step with a failing
curl issues exactly one PUT and surfaces the internal error carrying the
stderr text. -/
theorem c8_single_put_no_retry_witness :
    (handleUploadFile envCurlFail "/tmp/a.png".toList none).2.countP isPut = 1 ∧
    (handleUploadFile envCurlFail "/tmp/a.png".toList none).1 =
      .error ⟨.internalError,
        ("Failed to upload file: Upload failed: ").toList ++
          envCurlFail.curl.stderr⟩ := by
  have h := (c8_single_put_no_retry.1 envCurlFail "/tmp/a.png".toList none).2
    (by decide) (by decide)
  exact ⟨h.1, h.2 (by decide)⟩

/-- C9. Once the bounded prefix check passes on the stripped content of a
well-formed upload_file_content call, the full lenient decode never raises:
the call always stages exactly one temp file and issues exactly one PUT,
succeeds exactly when curl exits zero, and the only possible error is the
transfer error — never the invalid-base64 InvalidParams rejection; content
whose invalid characters lie beyond the first hundred is thus accepted and
transferred. -/
theorem c9_prefix_check_is_final (env : Env) (c f : Str) (mt? : Option Str)
    (hc : c ≠ []) (hf : f ≠ [])
    (hb : atobOk ((stripDataUrl c mt?).2.take 100) = true) :
    ((handleUploadFileContent env c f mt?).2.countP isWrite = 1 ∧
     (handleUploadFileContent env c f mt?).2.countP isPut = 1) ∧
    ((handleUploadFileContent env c f mt?).1.isOk = true ↔
      env.curl.exitCode = 0) ∧
    (∀ e, (handleUploadFileContent env c f mt?).1 = .error e →
      e = ⟨.internalError,
        ("Failed to upload file content: Upload failed: ").toList ++
          env.curl.stderr⟩) := by
  by_cases hcu : env.curl.exitCode = 0
  · rw [uploadContent_ok env c f mt? hc hf hb hcu]
    refine ⟨⟨?_, ?_⟩, ?_, ?_⟩
    · by_cases hd : env.deleteOk <;> simp [isWrite, hd]
    · by_cases hd : env.deleteOk <;> simp [isPut, hd]
    · simp [Except.isOk, Except.toBool, hcu]
    · intro e he; simp at he
  · rw [uploadContent_curlFail env c f mt? hc hf hb hcu]
    refine ⟨⟨?_, ?_⟩, ?_, ?_⟩
    · by_cases hd : env.deleteOk <;> simp [isWrite, hd]
    · by_cases hd : env.deleteOk <;> simp [isPut, hd]
    · simp [Except.isOk, Except.toBool, hcu]
    · intro e he
      simpa using he.symm

/-- C9 witness: content whose first hundred characters are valid base64 but
whose tail is garbage is accepted and the call succeeds. -/
theorem c9_prefix_check_is_final_witness :
    (handleUploadFileContent envOkAll lateGarbage "data.bin".toList none).1.isOk
      = true :=
  ((c9_prefix_check_is_final envOkAll lateGarbage "data.bin".toList none
    (by decide) (by decide) (by decide)).2.1).mpr rfl

/-- C10. Every success record of either handler is internally consistent
with the transfer performed: the reported content or mime type equals the
Content-Type sent in the PUT, the url equals the fixed public origin
followed by the remote path, and the remote path is the folder identifier,
a slash and the reported filename. -/
theorem c10_result_internal_consistency :
    (∀ (env : Env) (p : Str) (ct? : Option Str) (r : UploadFileResult),
      (handleUploadFile env p ct?).1 = .ok r →
      Effect.curlPut r.url p r.content_type ∈ (handleUploadFile env p ct?).2 ∧
      r.url = "https://s3.reily.app/public/".toList ++ r.remote_path ∧
      r.remote_path = r.folder_id ++ "/".toList ++ r.original_filename) ∧
    (∀ (env : Env) (c f : Str) (mt? : Option Str) (r : UploadContentResult),
      (handleUploadFileContent env c f mt?).1 = .ok r →
      (∃ src, Effect.curlPut r.url src r.mime_type ∈
        (handleUploadFileContent env c f mt?).2) ∧
      r.url = "https://s3.reily.app/public/".toList ++ r.remote_path ∧
      r.remote_path = r.folder_id ++ "/".toList ++ r.filename) := by
  constructor
  · intro env p ct? r h
    obtain ⟨hp, hex, hcu, hr⟩ := uploadFile_ok_inv env p ct? r h
    rw [uploadFile_ok env p ct? hp hex hcu]
    subst hr
    refine ⟨?_, ?_, ?_⟩
    · simp
    · simp [urlBase]
    · simp [destKey]
  · intro env c f mt? r h
    obtain ⟨hc, hf, hb, hcu, hr⟩ := uploadContent_ok_inv env c f mt? r h
    rw [uploadContent_ok env c f mt? hc hf hb hcu]
    subst hr
    refine ⟨⟨tmpPath env f, ?_⟩, ?_, ?_⟩
    · simp
    · simp [urlBase]
    · simp [destKey]

/-- C10 witness: the theorem applied to a successful concrete call of each
handler. -/
theorem c10_result_internal_consistency_witness :
    (Effect.curlPut pngResult.url "/tmp/a.png".toList pngResult.content_type ∈
      (handleUploadFile envOkAll "/tmp/a.png".toList none).2 ∧
     pngResult.url = "https://s3.reily.app/public/".toList ++ pngResult.remote_path) ∧
    (helloResult.url = "https://s3.reily.app/public/".toList ++ helloResult.remote_path ∧
     helloResult.remote_path = helloResult.folder_id ++ "/".toList ++ helloResult.filename) := by
  have h1 := c10_result_internal_consistency.1 envOkAll "/tmp/a.png".toList none
    pngResult (by decide)
  have h2 := c10_result_internal_consistency.2 envOkAll "aGVsbG8=".toList
    "hello.txt".toList none helloResult (by decide)
  exact ⟨⟨h1.1, h1.2.1⟩, ⟨h2.2.1, h2.2.2⟩⟩

/-! ### Round-trip lemmas for the canonical base64 encoder -/

/-- The decoder assigns to each alphabet character its sextet value. -/
theorem b64Index_sextetChar (n : Nat) (h : n < 64) :
    b64Index (sextetChar n) = some n := by
  have hfin : ∀ k : Fin 64, b64Index (b64Chars.getD k.val 'A') = some k.val := by
    decide
  have := hfin ⟨n, h⟩
  simpa [sextetChar, Nat.mod_eq_of_lt h] using this

/-- Every character emitted by the encoder is in the base64 alphabet. -/
theorem isB64Alpha_sextetChar (n : Nat) : isB64Alpha (sextetChar n) = true := by
  have hfin : ∀ k : Fin 64, isB64Alpha (b64Chars.getD k.val 'A') = true := by
    decide
  exact hfin ⟨n % 64, Nat.mod_lt _ (by omega)⟩

/-- Padding has no sextet value. -/
theorem b64Index_pad : b64Index '=' = none := by decide

/-- Lenient decoding inverts the canonical encoding of any byte sequence. -/
theorem decode_encode : ∀ bs : List Nat, (∀ x ∈ bs, x < 256) →
    bufferFromBase64 (base64EncodeBytes bs) = bs := by
  intro bs
  induction bs using base64EncodeBytes.induct with
  | case1 => intro _; rfl
  | case2 a =>
    intro hb
    have ha : a < 256 := hb a (by simp)
    have h1 := b64Index_sextetChar (a / 4) (by omega)
    have h2 := b64Index_sextetChar (a % 4 * 16) (by omega)
    simp [bufferFromBase64, base64EncodeBytes, List.filterMap_cons, h1, h2,
      b64Index_pad, decodeSextets]
    omega
  | case3 a b =>
    intro hb
    have ha : a < 256 := hb a (by simp)
    have hb' : b < 256 := hb b (by simp)
    have h1 := b64Index_sextetChar (a / 4) (by omega)
    have h2 := b64Index_sextetChar (a % 4 * 16 + b / 16) (by omega)
    have h3 := b64Index_sextetChar (b % 16 * 4) (by omega)
    simp [bufferFromBase64, base64EncodeBytes, List.filterMap_cons, h1, h2, h3,
      b64Index_pad, decodeSextets]
    omega
  | case4 a b c rest ih =>
    intro hb
    have ha : a < 256 := hb a (by simp)
    have hbb : b < 256 := hb b (by simp)
    have hc : c < 256 := hb c (by simp)
    have hrest := ih (fun x hx => hb x (by simp [hx]))
    have h1 := b64Index_sextetChar (a / 4) (by omega)
    have h2 := b64Index_sextetChar (a % 4 * 16 + b / 16) (by omega)
    have h3 := b64Index_sextetChar (b % 16 * 4 + c / 64) (by omega)
    have h4 := b64Index_sextetChar (c % 64) (by omega)
    simp only [bufferFromBase64] at hrest
    simp [bufferFromBase64, base64EncodeBytes, List.filterMap_cons, h1, h2, h3,
      h4, decodeSextets, hrest, List.cons.injEq]
    omega

/-- Alphabet characters are not padding. -/
theorem isB64Alpha_ne_pad (c : Char) (h : isB64Alpha c = true) : c ≠ '=' := by
  intro hc
  subst hc
  simp [isB64Alpha] at h

/-- Alphabet characters are not ASCII whitespace. -/
theorem isB64Alpha_not_ws (c : Char) (h : isB64Alpha c = true) :
    isAsciiWs c = false := by
  simp [isB64Alpha] at h
  simp [isAsciiWs]
  omega

/-- The canonical encoder emits well-shaped base64. -/
theorem goodB64_encode : ∀ bs : List Nat,
    goodB64 (base64EncodeBytes bs) = true := by
  intro bs
  induction bs using base64EncodeBytes.induct with
  | case1 => rfl
  | case2 a => simp [base64EncodeBytes, goodB64, isB64Alpha_sextetChar]
  | case3 a b => simp [base64EncodeBytes, goodB64, isB64Alpha_sextetChar]
  | case4 a b c rest ih =>
    by_cases hr : base64EncodeBytes rest = []
    · simp [base64EncodeBytes, goodB64, hr, isB64Alpha_sextetChar]
    · simp [base64EncodeBytes, goodB64, hr, isB64Alpha_sextetChar, ih]

/-- Well-shaped base64 has length divisible by four. -/
theorem goodB64_length : ∀ s : Str, goodB64 s = true → s.length % 4 = 0 := by
  intro s
  induction s using goodB64.induct with
  | case1 a b c d => intro _; simp
  | case2 a b c d rest hne ih =>
    intro h
    have hrest : goodB64 rest = true := by
      simp [goodB64, hne] at h
      tauto
    have := ih hrest
    simp [List.length_cons]
    omega
  | case3 => intro _; rfl
  | case4 t h4 h0 =>
    rcases t with _ | ⟨a, _ | ⟨b, _ | ⟨c, _ | ⟨d, rest⟩⟩⟩⟩
    · exact fun _ => rfl
    · intro h; simp [goodB64] at h
    · intro h; simp [goodB64] at h
    · intro h; simp [goodB64] at h
    · exact (h4 a b c d rest rfl).elim

/-- Every character of well-shaped base64 is alphabet or padding. -/
theorem goodB64_chars : ∀ s : Str, goodB64 s = true →
    ∀ x ∈ s, isB64Alpha x = true ∨ x = '=' := by
  intro s
  induction s using goodB64.induct with
  | case1 a b c d =>
    intro h x hx
    have ha : isB64Alpha a = true := by simp [goodB64] at h; tauto
    have hb : isB64Alpha b = true := by simp [goodB64] at h; tauto
    have hc : isB64Alpha c = true ∨ c = '=' := by simp [goodB64] at h; tauto
    have hd : isB64Alpha d = true ∨ d = '=' := by simp [goodB64] at h; tauto
    simp at hx
    rcases hx with rfl | rfl | rfl | rfl
    · exact .inl ha
    · exact .inl hb
    · exact hc
    · exact hd
  | case2 a b c d rest hne ih =>
    intro h x hx
    have h' : isB64Alpha a = true ∧ isB64Alpha b = true ∧ isB64Alpha c = true ∧
        isB64Alpha d = true ∧ goodB64 rest = true := by
      simp [goodB64, hne] at h
      tauto
    obtain ⟨ha, hb, hc, hd, hrest⟩ := h'
    simp at hx
    rcases hx with rfl | rfl | rfl | rfl | hx
    · exact .inl ha
    · exact .inl hb
    · exact .inl hc
    · exact .inl hd
    · exact ih hrest x hx
  | case3 => intro _ x hx; simp at hx
  | case4 t h4 h0 =>
    rcases t with _ | ⟨a, _ | ⟨b, _ | ⟨c, _ | ⟨d, rest⟩⟩⟩⟩
    · intro _ x hx; simp at hx
    · intro h; simp [goodB64] at h
    · intro h; simp [goodB64] at h
    · intro h; simp [goodB64] at h
    · exact (h4 a b c d rest rfl).elim

/-- Padding stripping commutes with a prefix when the tail keeps at least
two characters. -/
theorem stripPad_append (pre t : Str) (h : 2 ≤ t.length) :
    stripPad (pre ++ t) = pre ++ stripPad t := by
  rcases ht : t.reverse with _ | ⟨x, rest⟩
  · have ht' : t = [] := by simpa using congrArg List.reverse ht
    rw [ht'] at h; simp at h
  · rcases rest with _ | ⟨y, r⟩
    · have ht' : t = [x] := by simpa using congrArg List.reverse ht
      rw [ht'] at h; simp at h
    · have hrev : (pre ++ t).reverse = x :: y :: (r ++ pre.reverse) := by
        rw [List.reverse_append, ht]; simp
      unfold stripPad
      rw [hrev, ht]
      by_cases hx : x = '='
      · by_cases hy : y = '='
        · simp [hx, hy, List.reverse_append]
        · simp [hx, hy, List.reverse_append]
      · simp [hx]

/-- Padding stripping fixes a string of alphabet characters. -/
theorem stripPad_of_allAlpha (t : Str) (h : t.all isB64Alpha = true) :
    stripPad t = t := by
  rcases ht : t.reverse with _ | ⟨x, rest⟩
  · unfold stripPad; rw [ht]
  · have hxmem : x ∈ t := by
      have : x ∈ t.reverse := by rw [ht]; simp
      simpa using this
    have hx : isB64Alpha x = true := (List.all_eq_true.mp h) x hxmem
    have hxne : x ≠ '=' := isB64Alpha_ne_pad x hx
    unfold stripPad
    rw [ht]
    rcases rest with _ | ⟨y, r⟩
    · simp [hxne]
    · simp [hxne]

/-- Stripping the padding of well-shaped base64 leaves alphabet characters
whose count is not congruent to one modulo four. -/
theorem goodB64_stripPad : ∀ s : Str, goodB64 s = true →
    (stripPad s).all isB64Alpha = true ∧ (stripPad s).length % 4 ≠ 1 := by
  intro s
  induction s using goodB64.induct with
  | case1 a b c d =>
    intro h
    have ha : isB64Alpha a = true := by simp [goodB64] at h; tauto
    have hb : isB64Alpha b = true := by simp [goodB64] at h; tauto
    have hcd : (c = '=' ∧ d = '=') ∨ (isB64Alpha c = true ∧ d = '=') ∨
        (isB64Alpha c = true ∧ isB64Alpha d = true) := by
      simp [goodB64] at h; tauto
    have hrev : ([a, b, c, d] : Str).reverse = [d, c, b, a] := by simp
    unfold stripPad
    rw [hrev]
    rcases hcd with ⟨hc, hd⟩ | ⟨hc, hd⟩ | ⟨hc, hd⟩
    · subst hc; subst hd
      refine ⟨?_, ?_⟩ <;> simp [ha, hb]
    · subst hd
      have hcne : c ≠ '=' := isB64Alpha_ne_pad c hc
      refine ⟨?_, ?_⟩ <;> simp [ha, hb, hc, hcne]
    · have hdne : d ≠ '=' := isB64Alpha_ne_pad d hd
      refine ⟨?_, ?_⟩ <;> simp [ha, hb, hc, hd, hdne]
  | case2 a b c d rest hne ih =>
    intro h
    have h' : isB64Alpha a = true ∧ isB64Alpha b = true ∧ isB64Alpha c = true ∧
        isB64Alpha d = true ∧ goodB64 rest = true := by
      simp [goodB64, hne] at h
      tauto
    obtain ⟨ha, hb, hc, hd, hrest⟩ := h'
    have hlen2 : 2 ≤ rest.length := by
      have h0 := goodB64_length rest hrest
      have : rest.length ≠ 0 := fun hz => hne (List.length_eq_zero.mp hz)
      omega
    have hsa : stripPad (a :: b :: c :: d :: rest) =
        [a, b, c, d] ++ stripPad rest := stripPad_append [a, b, c, d] rest hlen2
    rw [hsa]
    obtain ⟨iha, ihl⟩ := ih hrest
    constructor
    · simp [List.all_append, ha, hb, hc, hd, iha]
    · simp [List.length_append]
      omega
  | case3 => intro _; exact ⟨by rfl, by decide⟩
  | case4 t h4 h0 =>
    rcases t with _ | ⟨a, _ | ⟨b, _ | ⟨c, _ | ⟨d, rest⟩⟩⟩⟩
    · intro _; exact ⟨by rfl, by decide⟩
    · intro h; simp [goodB64] at h
    · intro h; simp [goodB64] at h
    · intro h; simp [goodB64] at h
    · exact (h4 a b c d rest rfl).elim

/-- The atob check accepts every well-shaped base64 string. -/
theorem atobOk_of_good (s : Str) (h : goodB64 s = true) : atobOk s = true := by
  have hfilter : s.filter (fun c => !isAsciiWs c) = s := by
    rw [List.filter_eq_self]
    intro a ha
    rcases goodB64_chars s h a ha with hal | rfl
    · simp [isB64Alpha_not_ws a hal]
    · decide
  have hl := goodB64_length s h
  obtain ⟨hsa, hsl⟩ := goodB64_stripPad s h
  simp only [atobOk, hfilter, hl]
  simp [hsa, hsl]

/-- The atob check accepts alphabet-only strings of length divisible by
four. -/
theorem atobOk_allAlpha (t : Str) (h1 : t.all isB64Alpha = true)
    (h2 : t.length % 4 = 0) : atobOk t = true := by
  have hfilter : t.filter (fun c => !isAsciiWs c) = t := by
    rw [List.filter_eq_self]
    intro a ha
    simp [isB64Alpha_not_ws a ((List.all_eq_true.mp h1) a ha)]
  simp only [atobOk, hfilter, h2, stripPad_of_allAlpha t h1]
  simp [h1, h2]

/-- A proper prefix of well-shaped base64 of length divisible by four is
alphabet-only. -/
theorem goodB64_take_allAlpha : ∀ s : Str, goodB64 s = true →
    ∀ n, n % 4 = 0 → n < s.length → ((s.take n).all isB64Alpha) = true := by
  intro s
  induction s using goodB64.induct with
  | case1 a b c d =>
    intro _ n hn hlt
    have hz : n = 0 := by simp at hlt; omega
    subst hz; rfl
  | case2 a b c d rest hne ih =>
    intro h n hn hlt
    have h' : isB64Alpha a = true ∧ isB64Alpha b = true ∧ isB64Alpha c = true ∧
        isB64Alpha d = true ∧ goodB64 rest = true := by
      simp [goodB64, hne] at h
      tauto
    obtain ⟨ha, hb, hc, hd, hrest⟩ := h'
    rcases Nat.eq_zero_or_pos n with rfl | hpos
    · rfl
    · obtain ⟨m, rfl⟩ : ∃ m, n = m + 4 := ⟨n - 4, by omega⟩
      have hlt' : m < rest.length := by simp at hlt; omega
      simp [List.take_succ_cons, ha, hb, hc, hd]
      exact List.all_eq_true.mp (ih hrest m (by omega) hlt')
  | case3 => intro _ n _ hlt; simp at hlt
  | case4 t h4 h0 =>
    rcases t with _ | ⟨a, _ | ⟨b, _ | ⟨c, _ | ⟨d, rest⟩⟩⟩⟩
    · intro _ n _ hlt; simp at hlt
    · intro h; simp [goodB64] at h
    · intro h; simp [goodB64] at h
    · intro h; simp [goodB64] at h
    · exact (h4 a b c d rest rfl).elim

/-- The hundred-character prefix check of the handler accepts the canonical
encoding of every byte sequence: any cut of the encoding at a multiple of
four characters passes the atob check. -/
theorem atobOk_take_encode (bs : List Nat) (n : Nat) (hn : n % 4 = 0) :
    atobOk ((base64EncodeBytes bs).take n) = true := by
  have hg := goodB64_encode bs
  by_cases hle : (base64EncodeBytes bs).length ≤ n
  · rw [List.take_of_length_le hle]
    exact atobOk_of_good _ hg
  · push_neg at hle
    have hall := goodB64_take_allAlpha _ hg n hn hle
    have hlen : ((base64EncodeBytes bs).take n).length = n := by
      rw [List.length_take]
      exact Nat.min_eq_left hle.le
    exact atobOk_allAlpha _ hall (by rw [hlen]; exact hn)

/-- The canonical encoding never carries the inline-data prefix. -/
theorem encode_no_data_prefix (bs : List Nat) :
    ¬ (['d', 'a', 't', 'a', ':'] <+: base64EncodeBytes bs) := by
  intro hp
  have hcolon : (':' : Char) ∈ base64EncodeBytes bs := hp.subset (by simp)
  rcases goodB64_chars _ (goodB64_encode bs) ':' hcolon with h | h
  · exact absurd h (by decide)
  · exact absurd h (by decide)

/-- No inline-data mime is extracted from a canonical encoding. -/
theorem dataUrlMime_encode (bs : List Nat) :
    dataUrlMime (base64EncodeBytes bs) = none := by
  simp [dataUrlMime, encode_no_data_prefix bs]

/-- The canonical encoding of a non-empty byte sequence is non-empty. -/
theorem encode_ne_nil (bs : List Nat) (h : bs ≠ []) :
    base64EncodeBytes bs ≠ [] := by
  rcases bs with _ | ⟨a, _ | ⟨b, _ | ⟨c, rest⟩⟩⟩
  · exact absurd rfl h
  · simp [base64EncodeBytes]
  · simp [base64EncodeBytes]
  · simp [base64EncodeBytes]

/-- C7 counterexample. For the empty byte sequence the canonical encoding
is the empty string, which the handler rejects as a missing parameter: no
decode, staging or transfer happens at all, so the round-trip property
fails for this byte sequence. -/
theorem c7_counterexample_empty_sequence :
    base64EncodeBytes [] = [] ∧
    (handleUploadFileContent envOkAll (base64EncodeBytes [])
      "hello.txt".toList none).1 =
      .error ⟨.invalidParams, "content and filename are required".toList⟩ ∧
    (handleUploadFileContent envOkAll (base64EncodeBytes [])
      "hello.txt".toList none).2 = [] := by
  refine ⟨rfl, by decide, by decide⟩

/-- C7 as amended: for every non-empty byte sequence, passing its base64
encoding to upload_file_content stages exactly the original byte sequence
(the lenient decode inverts the encoding before transfer), and on transfer
success the result reports content_size equal to the original byte
length. -/
theorem c7_roundtrip (env : Env) (bs : List Nat) (f : Str)
    (hbs : bs ≠ []) (hb : ∀ x ∈ bs, x < 256) (hf : f ≠ []) :
    Effect.writeFile (tmpPath env f) bs ∈
      (handleUploadFileContent env (base64EncodeBytes bs) f none).2 ∧
    (env.curl.exitCode = 0 →
      ∃ r, (handleUploadFileContent env (base64EncodeBytes bs) f none).1 = .ok r ∧
        r.content_size = bs.length) := by
  have hne := encode_ne_nil bs hbs
  have hstrip : stripDataUrl (base64EncodeBytes bs) none =
      (none, base64EncodeBytes bs) :=
    stripDataUrl_of_noMime _ _ (dataUrlMime_encode bs)
  have hatob : atobOk ((stripDataUrl (base64EncodeBytes bs) none).2.take 100)
      = true := by
    rw [hstrip]
    exact atobOk_take_encode bs 100 (by decide)
  have hdec : bufferFromBase64 (stripDataUrl (base64EncodeBytes bs) none).2
      = bs := by
    rw [hstrip]
    exact decode_encode bs hb
  constructor
  · by_cases he : env.curl.exitCode = 0
    · rw [uploadContent_ok env _ f none hne hf hatob he]
      simp [hdec]
    · rw [uploadContent_curlFail env _ f none hne hf hatob he]
      simp [hdec]
  · intro he
    rw [uploadContent_ok env _ f none hne hf hatob he]
    exact ⟨_, rfl, by simp [hdec]⟩

/-- C7 witness: the amended theorem applied to the bytes of hello; the
staged bytes are the original five bytes and content_size is five. -/
theorem c7_roundtrip_witness :
    Effect.writeFile (tmpPath envOkAll "hello.txt".toList)
      [104, 101, 108, 108, 111] ∈
      (handleUploadFileContent envOkAll
        (base64EncodeBytes [104, 101, 108, 108, 111])
        "hello.txt".toList none).2 ∧
    ∃ r, (handleUploadFileContent envOkAll
        (base64EncodeBytes [104, 101, 108, 108, 111])
        "hello.txt".toList none).1 = .ok r ∧ r.content_size = 5 := by
  have h := c7_roundtrip envOkAll [104, 101, 108, 108, 111] "hello.txt".toList
    (by decide) (by decide) (by decide)
  exact ⟨h.1, h.2 rfl⟩

end UploadMcp
